import Mathlib

/-!
Verification of the upstream-exchange layer of mos-chinadns (`upstream.go`):
the transport abstraction (TCP/UDP exchangers, upstream factory) and the UDP
connection pool with TTL-based and capacity-based eviction.

Modelling conventions:
* Go `time.Time` instants and `time.Duration` values are `Nat` (nanoseconds);
  `time.Since(t)` at instant `now` is `now - t` (Go never observes a negative
  age here because timestamps are taken from the same monotonic clock, and
  with truncated `Nat` subtraction a "future" timestamp compares exactly like
  a negative Go duration in every `<` / `>` test the source performs).
* `*net.UDPConn` handles are abstract tokens (`UDPConn`); a nil handle is
  `Option.none`.  `Close` is an observable effect, recorded in a list in call
  order; closing a nil handle is a no-op (as in Go, where it merely returns
  `EINVAL`).
* Go `int` fields that the source compares against `0` (`maxSize`) are `Int`.
* The pool's mutex serialises `get`/`put`/`runCleanner`; the lock itself has
  no observable content, so pool operations are pure state transformers.
-/

/-- Abstract token standing for a live `*net.UDPConn` handle. -/
structure UDPConn where
  id : Nat
deriving DecidableEq, Repr

/-- `udpConnPoolElem`: a pooled socket plus its last-release timestamp.
The `UDPConn` field is `Option` because the source assigns `nil` to it. -/
structure udpConnPoolElem where
  conn : Option UDPConn
  lastUsed : Nat
deriving DecidableEq, Repr

/-- `udpConnPool` (the mutex field carries no state and is omitted). -/
structure udpConnPool where
  maxSize : Int
  pool : List udpConnPoolElem
  ttl : Nat
  lastClean : Nat
  cleannerInterval : Nat
deriving DecidableEq, Repr

/-- `newUDPConnPool(size, ttl, gcInterval)`; the zero value of `lastClean`
(`time.Time{}`) is instant `0`. -/
def newUDPConnPool (size : Int) (ttl gcInterval : Nat) : udpConnPool :=
  { maxSize := size
    pool := []
    ttl := ttl
    lastClean := 0
    cleannerInterval := gcInterval }

/-- The capacity-sweep loop of `runCleanner` (`for i := range p.pool`), from
index `i`: when `i < mid` the element's socket is closed and the field set to
nil; then, independently, the element is kept iff its age is `< ttl`, and an
expired element's (possibly already nil) socket is closed.  Returns the
rebuilt pool (`res`) and the closed sockets in call order. -/
def capSweep (now ttl mid : Nat) : Nat → List udpConnPoolElem →
    List udpConnPoolElem × List UDPConn
  | _, [] => ([], [])
  | i, e :: rest =>
    let e2 := if i < mid then { e with conn := none } else e
    let c1 := if i < mid then e.conn.toList else []
    let tail := capSweep now ttl mid (i + 1) rest
    if now - e2.lastUsed < ttl then (e2 :: tail.1, c1 ++ tail.2)
    else (tail.1, c1 ++ e2.conn.toList ++ tail.2)

/-- Result of a pool-mutating call: the new pool and the sockets closed by
the call, in order. -/
structure CleanResult where
  pool : udpConnPool
  closed : List UDPConn
deriving DecidableEq, Repr

/-- The scheduled ("//scheduled") pass of `runCleanner`: at most once per
`cleannerInterval`, rebuild the pool keeping only the entries whose age is
`< ttl` and close the sockets of the rest (closing an already-nil socket is
a no-op, hence the `filterMap`). -/
def schedSweep (now : Nat) (p : udpConnPool) : CleanResult :=
  if p.cleannerInterval < now - p.lastClean then
    { pool := { p with
        lastClean := now
        pool := p.pool.filter (fun e => now - e.lastUsed < p.ttl) }
      closed :=
        (p.pool.filter (fun e => ¬ (now - e.lastUsed < p.ttl))).filterMap
          (fun e => e.conn) }
  else { pool := p, closed := [] }

/-- The "//when the pool is full" pass of `runCleanner`: when
`len(pool) >= maxSize`, run `capSweep` with `mid = len >> 1`. -/
def capacityPass (now : Nat) (p : udpConnPool) : CleanResult :=
  if p.maxSize ≤ (p.pool.length : Int) then
    let s := capSweep now p.ttl (p.pool.length / 2) 0 p.pool
    { pool := { p with pool := s.1 }, closed := s.2 }
  else { pool := p, closed := [] }

/-- `(*udpConnPool).runCleanner`, which runs under the pool's lock.  Its own
guard `p == nil && len(p.pool) == 0` is `false` on a non-nil receiver, so on
the non-nil receivers modelled here the body always runs: the scheduled
sweep followed by the capacity sweep, on shared state. -/
def udpConnPool.runCleanner (now : Nat) (p : udpConnPool) : CleanResult :=
  let r1 := schedSweep now p
  let r2 := capacityPass now r1.pool
  { pool := r2.pool, closed := r1.closed ++ r2.closed }

/-- `(*udpConnPool).put` on a non-nil receiver (the guard
`p == nil && p.maxSize <= 0` is `false` there; `evalNilGuard` below models
its evaluation on a possibly-nil reference).  Cleans, then drops the incoming
socket when the pool is full, else appends it stamped `now`. -/
def udpConnPool.put (now : Nat) (p : udpConnPool) (c : UDPConn) : CleanResult :=
  let r := p.runCleanner now
  if r.pool.maxSize ≤ (r.pool.pool.length : Int) then
    { pool := r.pool, closed := r.closed ++ [c] }
  else
    { pool := { r.pool with
        pool := r.pool.pool ++ [{ conn := some c, lastUsed := now }] }
      closed := r.closed }

/-- Result of `get`: new pool, closed sockets, and the returned handle
(`none` models returning `nil`). -/
structure GetResult where
  pool : udpConnPool
  closed : List UDPConn
  conn : Option UDPConn
deriving DecidableEq, Repr

/-- `(*udpConnPool).get` on a non-nil receiver.  Cleans, then pops the last
entry (`p.pool[len-1]`); if the popped entry's age exceeds `ttl` its socket
is closed and `nil` is returned, else its socket is returned; an empty pool
yields `nil`. -/
def udpConnPool.get (now : Nat) (p : udpConnPool) : GetResult :=
  let r := p.runCleanner now
  match r.pool.pool.getLast? with
  | some e =>
    let q := { r.pool with pool := r.pool.pool.dropLast }
    if r.pool.ttl < now - e.lastUsed then
      { pool := q, closed := r.closed ++ e.conn.toList, conn := none }
    else
      { pool := q, closed := r.closed, conn := e.conn }
  | none => { pool := r.pool, closed := r.closed, conn := none }

/-- A call against the pool, with the instant at which it happens. -/
inductive PoolOp where
  | opPut (now : Nat) (c : UDPConn)
  | opGet (now : Nat)
deriving DecidableEq, Repr

/-- Run a sequence of `put`/`get` calls, accumulating every closed socket. -/
def runOps : udpConnPool → List PoolOp → udpConnPool × List UDPConn
  | p, [] => (p, [])
  | p, PoolOp.opPut now c :: ops =>
    let r := p.put now c
    let t := runOps r.pool ops
    (t.1, r.closed ++ t.2)
  | p, PoolOp.opGet now :: ops =>
    let r := p.get now
    let t := runOps r.pool ops
    (t.1, r.closed ++ t.2)

/-! ## The message-ID codec -/

/-- Modelled from the spec: `utils.GetMsgID` belongs to the repository's
`utils` package, which is not under src/.  Per the spec it "extracts the
16-bit transaction ID from the first bytes of a raw DNS message"; "byte 0–1
(network order) is the transaction ID", i.e. big-endian. -/
def GetMsgID (m : List Nat) : Nat :=
  256 * m.headD 0 + (m.drop 1).headD 0

/-! ## The UDP exchanger

`(*upstreamUDP).exchange` interacts with the network through `net.DialUDP`,
`c.Write` and `c.Read`.  The environment is modelled by the outcome of those
calls: whether the pool `get` hit, whether the dial and the write succeed,
whether `ctx.Err() != nil` when a read fails, and the successive results of
`c.Read` (a script; the `goto read` loop consumes one entry per iteration).
`udpExchange` returns `none` when the script runs out, i.e. when the real
program would still be blocked inside `c.Read` with no exit path taken. -/

/-- One result of `c.Read` on the UDP socket. -/
inductive ReadRes where
  | msg (bytes : List Nat)
  | timeoutRead
  | otherRead
deriving DecidableEq, Repr

/-- What happened to the connection by the time `exchange` returned. -/
inductive ConnFate where
  | closed
  | pooled
deriving DecidableEq, Repr

/-- The error value returned by the UDP `exchange`. -/
inductive UDPErr where
  | dialErr
  | writeErr
  | readTimeout
  | readOther
  | shortRead
deriving DecidableEq, Repr

/-- Environment of one UDP `exchange` call. -/
structure UDPEnv where
  poolHit : Bool
  dialOk : Bool
  writeOk : Bool
  ctxCancelled : Bool
  reads : List ReadRes
deriving DecidableEq, Repr

/-- Observable outcome of one UDP `exchange` call.  `connFate = none` means
no connection was ever obtained (failed dial); `bufAcquired` records whether
`bufpool.AcquireMsgBuf` ran, `bufReleased` whether `bufpool.ReleaseMsgBuf`
ran on it. -/
structure UDPOutcome where
  reply : Option (List Nat)
  error : Option UDPErr
  connFate : Option ConnFate
  bufAcquired : Bool
  bufReleased : Bool
deriving DecidableEq, Repr

/-- The `read:` label / `goto read` loop of `(*upstreamUDP).exchange`, lines
158–190: a failed read is fatal, but a timeout with the context already done
returns the connection to the pool; a short (< 12 bytes) reply is fatal; a
reply whose ID differs from the query's on a *reused* connection triggers a
re-read; otherwise the reply is returned and the connection pooled. -/
def udpReadLoop (qID : Nat) (isNewConn ctxCancelled : Bool) :
    List ReadRes → Option UDPOutcome
  | [] => none
  | ReadRes.timeoutRead :: _ =>
    if ctxCancelled then
      some { reply := none, error := some UDPErr.readTimeout
             connFate := some ConnFate.pooled
             bufAcquired := true, bufReleased := true }
    else
      some { reply := none, error := some UDPErr.readTimeout
             connFate := some ConnFate.closed
             bufAcquired := true, bufReleased := true }
  | ReadRes.otherRead :: _ =>
    some { reply := none, error := some UDPErr.readOther
           connFate := some ConnFate.closed
           bufAcquired := true, bufReleased := true }
  | ReadRes.msg bytes :: rest =>
    if bytes.length < 12 then
      some { reply := none, error := some UDPErr.shortRead
             connFate := some ConnFate.closed
             bufAcquired := true, bufReleased := true }
    else if GetMsgID bytes ≠ qID ∧ isNewConn = false then
      udpReadLoop qID isNewConn ctxCancelled rest
    else
      some { reply := some bytes, error := none
             connFate := some ConnFate.pooled
             bufAcquired := true, bufReleased := false }

/-- `(*upstreamUDP).exchange` (lines 130–191): take a pooled connection or
dial a new one (`isNewConn`), write the query (a failed write closes the
connection),
acquire a receive buffer, then run the read loop. -/
def udpExchange (qRaw : List Nat) (env : UDPEnv) : Option UDPOutcome :=
  if env.poolHit = false ∧ env.dialOk = false then
    some { reply := none, error := some UDPErr.dialErr
           connFate := none, bufAcquired := false, bufReleased := false }
  else if env.writeOk = false then
    some { reply := none, error := some UDPErr.writeErr
           connFate := some ConnFate.closed
           bufAcquired := false, bufReleased := false }
  else
    udpReadLoop (GetMsgID qRaw) (!env.poolHit) env.ctxCancelled env.reads

/-! ## The TCP exchanger -/

/-- The error value returned by the TCP `exchange`. -/
inductive TCPErr where
  | dialErr
  | writeErr
  | readErr
  | errId
deriving DecidableEq, Repr

/-- Environment of one TCP `exchange` call: whether the dial and the
length-prefixed write succeed, and the result of `readMsgFromTCP`
(`none` = read error). -/
structure TCPEnv where
  dialOk : Bool
  writeOk : Bool
  readRes : Option (List Nat)
deriving DecidableEq, Repr

/-- `(*upstreamTCP).exchange` (lines 92–122): dial a fresh connection
(always closed on exit by `defer c.Close()`), write the query, read a reply,
and fail with `dns.ErrId` — releasing the reply buffer — when the reply's
transaction ID differs from the query's. -/
def tcpExchange (qRaw : List Nat) (env : TCPEnv) :
    Option (List Nat) × Option TCPErr :=
  if env.dialOk = false then (none, some TCPErr.dialErr)
  else if env.writeOk = false then (none, some TCPErr.writeErr)
  else
    match env.readRes with
    | none => (none, some TCPErr.readErr)
    | some rRaw =>
      if GetMsgID rRaw ≠ GetMsgID qRaw then (none, some TCPErr.errId)
      else (some rRaw, none)

/-! ## The upstream factory -/

/-- A resolved UDP endpoint (opaque). -/
structure UDPAddr where
  repr : String
deriving DecidableEq, Repr

/-- The `upstream` variants produced by `newUpstream`.  The DoH client is an
external collaborator; only its construction parameters are recorded. -/
inductive Upstream where
  | tcp (addr : String)
  | udp (addr : UDPAddr) (maxUDPSize : Nat) (cp : udpConnPool)
  | doh (url : String) (addr : String)
deriving DecidableEq, Repr

/-- The error classes `newUpstream` can return. -/
inductive UpstreamErr where
  | resolveErr
  | needURL
  | unsupported
deriving DecidableEq, Repr

/-- Number of nanoseconds in `time.Second`. -/
def second : Nat := 1000000000

/-- `newUpstream(addr, prot, url, rootCAs)` (lines 51–84).
`net.ResolveUDPAddr` is external; it is passed in as `resolveUDP`
(`none` = resolution error).  `rootCAs` only feeds the opaque DoH client and
is omitted. -/
def newUpstream (resolveUDP : String → Option UDPAddr)
    (addr prot url : String) : Except UpstreamErr Upstream :=
  match prot with
  | "tcp" => Except.ok (Upstream.tcp addr)
  | "udp" | "" =>
    match resolveUDP addr with
    | none => Except.error UpstreamErr.resolveErr
    | some udpAddr =>
      Except.ok (Upstream.udp udpAddr 1480
        (newUDPConnPool 0xffff (10 * second) (10 * second)))
  | "doh" =>
    if url.length = 0 then Except.error UpstreamErr.needURL
    else Except.ok (Upstream.doh url addr)
  | _ => Except.error UpstreamErr.unsupported

/-! ## The nil-receiver guard

`put` and `get` open with `if p == nil && p.maxSize <= 0 { return ... }`.
Go's `&&` evaluates left to right and short-circuits only when the left
operand is `false`; when `p` is nil the left operand is `true`, so the right
operand `p.maxSize` is evaluated and dereferences the nil pointer.  A
possibly-nil pool reference is `Option udpConnPool`; faults are explicit. -/

/-- A Go runtime fault. -/
inductive GoFault where
  | nilDeref
deriving DecidableEq, Repr

/-- Reading the field `p.maxSize` through a possibly-nil reference. -/
def readMaxSize : Option udpConnPool → Except GoFault Int
  | none => Except.error GoFault.nilDeref
  | some q => Except.ok q.maxSize

/-- Left-to-right short-circuit evaluation of the guard
`p == nil && p.maxSize <= 0` shared by `put` (line 264) and `get`
(line 281). -/
def evalNilGuard (p : Option udpConnPool) : Except GoFault Bool :=
  if p.isNone then (readMaxSize p).map (fun m => decide (m ≤ 0))
  else Except.ok false

/-- `put` invoked through a possibly-nil reference: evaluate the guard
(faulting on nil), return early doing nothing if it holds, else run the
method body. -/
def putOnRef (now : Nat) (p : Option udpConnPool) (c : UDPConn) :
    Except GoFault CleanResult :=
  match evalNilGuard p, p with
  | Except.error f, _ => Except.error f
  | Except.ok true, some q => Except.ok { pool := q, closed := [] }
  | Except.ok false, some q => Except.ok (q.put now c)
  | _, none => Except.error GoFault.nilDeref

/-- `get` invoked through a possibly-nil reference. -/
def getOnRef (now : Nat) (p : Option udpConnPool) :
    Except GoFault GetResult :=
  match evalNilGuard p, p with
  | Except.error f, _ => Except.error f
  | Except.ok true, some q => Except.ok { pool := q, closed := [], conn := none }
  | Except.ok false, some q => Except.ok (q.get now)
  | _, none => Except.error GoFault.nilDeref

/-! ## Helper lemmas about the pool -/

theorem capSweep_length_le (now ttl mid : Nat) :
    ∀ (i : Nat) (l : List udpConnPoolElem),
      (capSweep now ttl mid i l).1.length ≤ l.length := by
  intro i l
  induction l generalizing i with
  | nil => simp [capSweep]
  | cons e rest ih =>
    have h := ih (i + 1)
    simp only [capSweep]
    split <;> split <;> simp only [List.length_cons] <;> omega

theorem schedSweep_fields (now : Nat) (p : udpConnPool) :
    (schedSweep now p).pool.maxSize = p.maxSize ∧
    (schedSweep now p).pool.ttl = p.ttl ∧
    (schedSweep now p).pool.cleannerInterval = p.cleannerInterval := by
  unfold schedSweep
  split <;> simp

theorem schedSweep_length_le (now : Nat) (p : udpConnPool) :
    (schedSweep now p).pool.pool.length ≤ p.pool.length := by
  unfold schedSweep
  split
  · simpa using List.length_filter_le _ p.pool
  · simp

theorem capacityPass_fields (now : Nat) (p : udpConnPool) :
    (capacityPass now p).pool.maxSize = p.maxSize ∧
    (capacityPass now p).pool.ttl = p.ttl ∧
    (capacityPass now p).pool.cleannerInterval = p.cleannerInterval := by
  unfold capacityPass
  split <;> simp

theorem capacityPass_length_le (now : Nat) (p : udpConnPool) :
    (capacityPass now p).pool.pool.length ≤ p.pool.length := by
  unfold capacityPass
  split
  · simpa using capSweep_length_le now p.ttl (p.pool.length / 2) 0 p.pool
  · simp

theorem runCleanner_fields (now : Nat) (p : udpConnPool) :
    (p.runCleanner now).pool.maxSize = p.maxSize ∧
    (p.runCleanner now).pool.ttl = p.ttl ∧
    (p.runCleanner now).pool.cleannerInterval = p.cleannerInterval := by
  unfold udpConnPool.runCleanner
  refine ⟨?_, ?_, ?_⟩ <;>
    simp [capacityPass_fields, schedSweep_fields,
      (capacityPass_fields now (schedSweep now p).pool).1,
      (capacityPass_fields now (schedSweep now p).pool).2.1,
      (capacityPass_fields now (schedSweep now p).pool).2.2,
      (schedSweep_fields now p).1, (schedSweep_fields now p).2.1,
      (schedSweep_fields now p).2.2]

theorem runCleanner_length_le (now : Nat) (p : udpConnPool) :
    (p.runCleanner now).pool.pool.length ≤ p.pool.length := by
  unfold udpConnPool.runCleanner
  exact Nat.le_trans (capacityPass_length_le now (schedSweep now p).pool)
    (schedSweep_length_le now p)

/-- The bound `len(pool) <= maxSize` that `put` and `get` preserve. -/
def poolInv (p : udpConnPool) : Prop := (p.pool.length : Int) ≤ p.maxSize

instance (p : udpConnPool) : Decidable (poolInv p) := by
  unfold poolInv; infer_instance

theorem put_preserves_inv (now : Nat) (p : udpConnPool) (c : UDPConn)
    (h : poolInv p) : poolInv (p.put now c).pool := by
  have hlen := runCleanner_length_le now p
  have hmax := (runCleanner_fields now p).1
  have hbase : ((p.runCleanner now).pool.pool.length : Int) ≤ p.maxSize := by
    calc ((p.runCleanner now).pool.pool.length : Int)
        ≤ (p.pool.length : Int) := by exact_mod_cast hlen
      _ ≤ p.maxSize := h
  unfold poolInv at h ⊢
  simp only [udpConnPool.put]
  split
  · simpa [hmax] using hbase
  · rename_i hfull
    rw [not_le] at hfull
    simp only [List.length_append, List.length_cons, List.length_nil, hmax]
    rw [hmax] at hfull
    push_cast
    omega

theorem get_preserves_inv (now : Nat) (p : udpConnPool)
    (h : poolInv p) : poolInv (p.get now).pool := by
  have hlen := runCleanner_length_le now p
  have hmax := (runCleanner_fields now p).1
  have hbase : ((p.runCleanner now).pool.pool.length : Int) ≤
      (p.runCleanner now).pool.maxSize := by
    rw [hmax]
    calc ((p.runCleanner now).pool.pool.length : Int)
        ≤ (p.pool.length : Int) := by exact_mod_cast hlen
      _ ≤ p.maxSize := h
  have hdrop : ((p.runCleanner now).pool.pool.dropLast.length : Int) ≤
      (p.runCleanner now).pool.maxSize := by
    refine le_trans ?_ hbase
    have := List.length_dropLast (p.runCleanner now).pool.pool
    rw [this]
    exact_mod_cast Nat.cast_le.mpr (Nat.sub_le _ 1)
  unfold poolInv
  simp only [udpConnPool.get]
  split
  · split <;> simpa using hdrop
  · simpa using hbase

theorem put_maxSize (now : Nat) (p : udpConnPool) (c : UDPConn) :
    (p.put now c).pool.maxSize = p.maxSize := by
  have hm := (runCleanner_fields now p).1
  simp only [udpConnPool.put]
  split <;> simpa using hm

theorem get_maxSize (now : Nat) (p : udpConnPool) :
    (p.get now).pool.maxSize = p.maxSize := by
  have hm := (runCleanner_fields now p).1
  simp only [udpConnPool.get]
  split
  · split <;> simpa using hm
  · simpa using hm

theorem runOps_inv (ops : List PoolOp) (p : udpConnPool) (h : poolInv p) :
    poolInv (runOps p ops).1 := by
  induction ops generalizing p with
  | nil => simpa [runOps] using h
  | cons op rest ih =>
    cases op with
    | opPut now c =>
      simp only [runOps]
      exact ih _ (put_preserves_inv now p c h)
    | opGet now =>
      simp only [runOps]
      exact ih _ (get_preserves_inv now p h)

theorem runOps_maxSize (ops : List PoolOp) (p : udpConnPool) :
    (runOps p ops).1.maxSize = p.maxSize := by
  induction ops generalizing p with
  | nil => simp [runOps]
  | cons op rest ih =>
    cases op with
    | opPut now c =>
      simp only [runOps]
      rw [ih, put_maxSize]
    | opGet now =>
      simp only [runOps]
      rw [ih, get_maxSize]

theorem schedSweep_empty (now : Nat) (p : udpConnPool) (h : p.pool = []) :
    (schedSweep now p).pool.pool = [] ∧ (schedSweep now p).closed = [] := by
  unfold schedSweep
  split <;> simp [h]

theorem capacityPass_empty (now : Nat) (p : udpConnPool) (h : p.pool = []) :
    (capacityPass now p).pool.pool = [] ∧ (capacityPass now p).closed = [] := by
  unfold capacityPass
  split <;> simp [h, capSweep]

theorem runCleanner_empty (now : Nat) (p : udpConnPool) (h : p.pool = []) :
    (p.runCleanner now).pool.pool = [] ∧ (p.runCleanner now).closed = [] := by
  have h1 := schedSweep_empty now p h
  have h2 := capacityPass_empty now (schedSweep now p).pool h1.1
  unfold udpConnPool.runCleanner
  exact ⟨h2.1, by simp [h1.2, h2.2]⟩

theorem put_empty (now : Nat) (p : udpConnPool) (c : UDPConn)
    (h0 : p.maxSize = 0) (h : p.pool = []) :
    (p.put now c).pool.pool = [] ∧ (p.put now c).closed = [c] ∧
    (p.put now c).pool.maxSize = 0 := by
  have hc := runCleanner_empty now p h
  have hm := (runCleanner_fields now p).1
  have hcond : (p.runCleanner now).pool.maxSize ≤
      ((p.runCleanner now).pool.pool.length : Int) := by
    rw [hm, h0, hc.1]; simp
  simp only [udpConnPool.put, if_pos hcond]
  exact ⟨hc.1, by simp [hc.2], by rw [hm, h0]⟩

theorem get_empty (now : Nat) (p : udpConnPool)
    (h0 : p.maxSize = 0) (h : p.pool = []) :
    (p.get now).pool.pool = [] ∧ (p.get now).closed = [] ∧
    (p.get now).conn = none ∧ (p.get now).pool.maxSize = 0 := by
  have hc := runCleanner_empty now p h
  have hm := (runCleanner_fields now p).1
  simp only [udpConnPool.get, hc.1, List.getLast?]
  simp [hc.2, hm, h0]

theorem runOps_empty (ops : List PoolOp) (p : udpConnPool)
    (h0 : p.maxSize = 0) (h : p.pool = []) :
    (runOps p ops).1.pool = [] := by
  induction ops generalizing p with
  | nil => simpa [runOps] using h
  | cons op rest ih =>
    cases op with
    | opPut now c =>
      simp only [runOps]
      exact ih _ (put_empty now p c h0 h).2.2 (put_empty now p c h0 h).1
    | opGet now =>
      simp only [runOps]
      exact ih _ (get_empty now p h0 h).2.2.2 (get_empty now p h0 h).1

theorem udpReadLoop_outcome (reads : List ReadRes) (qID : Nat)
    (inew cc : Bool) (o : UDPOutcome)
    (h : udpReadLoop qID inew cc reads = some o) :
    o.bufAcquired = true ∧ o.connFate.isSome = true ∧
    (o.reply.isSome = true ↔ o.bufReleased = false) := by
  induction reads generalizing o with
  | nil => simp [udpReadLoop] at h
  | cons r rest ih =>
    cases r with
    | timeoutRead =>
      simp only [udpReadLoop] at h
      split at h <;> (cases h; simp)
    | otherRead =>
      simp only [udpReadLoop] at h
      cases h; simp
    | msg bytes =>
      simp only [udpReadLoop] at h
      by_cases h12 : bytes.length < 12
      · rw [if_pos h12] at h
        cases h; simp
      · rw [if_neg h12] at h
        by_cases hm : GetMsgID bytes ≠ qID ∧ inew = false
        · rw [if_pos hm] at h
          exact ih o h
        · rw [if_neg hm] at h
          cases h; simp

/-! ## Claims -/

/-- C2: for every connection pool and every sequence of `get`/`put` calls,
`len(pool) <= maxSize` holds after any `put`; the bound is an invariant
preserved by every pool operation, and it holds along any operation
sequence starting from a freshly constructed pool. -/
theorem C2_pool_bounded :
    (∀ (now : Nat) (p : udpConnPool) (c : UDPConn),
      poolInv p → poolInv (p.put now c).pool) ∧
    (∀ (now : Nat) (p : udpConnPool),
      poolInv p → poolInv (p.get now).pool) ∧
    (∀ (size ttl gc : Nat) (ops : List PoolOp),
      ((runOps (newUDPConnPool (size : Int) ttl gc) ops).1.pool.length : Int) ≤
        (size : Int)) := by
  refine ⟨put_preserves_inv, get_preserves_inv, fun size ttl gc ops => ?_⟩
  have h0 : poolInv (newUDPConnPool (size : Int) ttl gc) := by
    unfold poolInv newUDPConnPool
    simp
  have h1 := runOps_inv ops _ h0
  have h2 := runOps_maxSize ops (newUDPConnPool (size : Int) ttl gc)
  unfold poolInv at h1
  rw [h2] at h1
  simpa [newUDPConnPool] using h1

/-- Witness for C2 at a concrete pool and operation sequence. -/
theorem C2_pool_bounded_witness :
    poolInv ((newUDPConnPool 4 10 10).put 20 (UDPConn.mk 1)).pool ∧
    poolInv ((newUDPConnPool 4 10 10).get 20).pool ∧
    ((runOps (newUDPConnPool ((4 : Nat) : Int) 10 10)
        [PoolOp.opPut 20 (UDPConn.mk 1), PoolOp.opGet 21]).1.pool.length : Int) ≤
      ((4 : Nat) : Int) :=
  ⟨C2_pool_bounded.1 20 (newUDPConnPool 4 10 10) (UDPConn.mk 1) (by decide),
   C2_pool_bounded.2.1 20 (newUDPConnPool 4 10 10) (by decide),
   C2_pool_bounded.2.2 4 10 10 [PoolOp.opPut 20 (UDPConn.mk 1), PoolOp.opGet 21]⟩

/-- C3 (evaluation at the failing input): with pool capacity 4, TTL 10s and
cleanup interval 10s, six `put` calls at instant 20s (all connections young)
leave the pool holding FOUR entries of which the first two — the oldest half,
closed by the capacity sweep — are still present with nil sockets, and the
incoming connections 5 and 6 are closed on arrival.  The claim (and the
code's own comment "forcely remove half conns first") says the oldest half
is *dropped* from the pool; the capacity sweep closes those entries but then
re-appends any of them younger than TTL, so nothing is ever dropped by it
while entries are young, and the pool never regains capacity. -/
theorem C3_capacity_sweep_eval :
    runOps (newUDPConnPool 4 (10 * second) (10 * second))
      [PoolOp.opPut (20 * second) (UDPConn.mk 1),
       PoolOp.opPut (20 * second) (UDPConn.mk 2),
       PoolOp.opPut (20 * second) (UDPConn.mk 3),
       PoolOp.opPut (20 * second) (UDPConn.mk 4),
       PoolOp.opPut (20 * second) (UDPConn.mk 5),
       PoolOp.opPut (20 * second) (UDPConn.mk 6)] =
      ({ maxSize := 4
         pool := [{ conn := none, lastUsed := 20 * second },
                  { conn := none, lastUsed := 20 * second },
                  { conn := some (UDPConn.mk 3), lastUsed := 20 * second },
                  { conn := some (UDPConn.mk 4), lastUsed := 20 * second }]
         ttl := 10 * second
         lastClean := 20 * second
         cleannerInterval := 10 * second },
       [UDPConn.mk 1, UDPConn.mk 2, UDPConn.mk 5, UDPConn.mk 6]) := by
  decide

/-- C9: the guard `p == nil && p.maxSize <= 0` opening `put` and `get`
evaluates `p.maxSize` exactly when `p` is nil (Go's `&&` short-circuits only
on a `false` left operand), so calling `put` or `get` through a nil pool
reference faults with a nil dereference, and the guard can never evaluate to
`true` — its early-return branch is unreachable as a protection. -/
theorem C9_nil_guard_faults :
    (∀ (now : Nat) (c : UDPConn),
      putOnRef now none c = Except.error GoFault.nilDeref) ∧
    (∀ (now : Nat), getOnRef now none = Except.error GoFault.nilDeref) ∧
    evalNilGuard none = Except.error GoFault.nilDeref ∧
    (∀ (p : Option udpConnPool),
      evalNilGuard p = Except.error GoFault.nilDeref ∨
      evalNilGuard p = Except.ok false) := by
  refine ⟨fun now c => rfl, fun now => rfl, rfl, fun p => ?_⟩
  cases p with
  | none => exact Or.inl rfl
  | some q => exact Or.inr rfl

/-- C10: a non-nil pool with `maxSize = 0` is a valid "no pooling"
configuration: `put` closes the incoming connection and leaves the pool
empty, `get` returns nil and leaves the pool empty, and every operation
sequence from a freshly constructed zero-capacity pool keeps it empty. -/
theorem C10_zero_capacity :
    (∀ (now : Nat) (p : udpConnPool) (c : UDPConn),
      p.maxSize = 0 → p.pool = [] →
      (p.put now c).pool.pool = [] ∧ (p.put now c).closed = [c] ∧
      (p.get now).pool.pool = [] ∧ (p.get now).conn = none ∧
      (p.get now).closed = []) ∧
    (∀ (ttl gc : Nat) (ops : List PoolOp),
      (runOps (newUDPConnPool 0 ttl gc) ops).1.pool = []) := by
  constructor
  · intro now p c h0 h
    exact ⟨(put_empty now p c h0 h).1, (put_empty now p c h0 h).2.1,
      (get_empty now p h0 h).1, (get_empty now p h0 h).2.2.1,
      (get_empty now p h0 h).2.1⟩
  · intro ttl gc ops
    exact runOps_empty ops _ rfl rfl

/-- C5: `get` first runs cleanup, then pops the most-recently-released
(last, LIFO) entry of the pool; if the popped entry's age exceeds TTL it
closes that entry's socket and returns nil instead, otherwise it returns the
popped entry's socket; on an empty pool it returns nil and closes nothing
beyond what cleanup closed. -/
theorem C5_get_lifo (now : Nat) (p : udpConnPool) :
    ((p.runCleanner now).pool.pool = [] →
      (p.get now).conn = none ∧ (p.get now).pool.pool = [] ∧
      (p.get now).closed = (p.runCleanner now).closed) ∧
    (∀ (rest : List udpConnPoolElem) (e : udpConnPoolElem),
      (p.runCleanner now).pool.pool = rest ++ [e] →
      (p.get now).pool.pool = rest ∧
      (p.get now).conn = (if p.ttl < now - e.lastUsed then none else e.conn) ∧
      (p.get now).closed = (p.runCleanner now).closed ++
        (if p.ttl < now - e.lastUsed then e.conn.toList else [])) := by
  have httl := (runCleanner_fields now p).2.1
  constructor
  · intro h
    simp only [udpConnPool.get, h, List.getLast?]
    simp
  · intro rest e h
    simp only [udpConnPool.get, h, List.getLast?_concat, List.dropLast_concat]
    rw [httl]
    split <;> simp

/-- Witness for C5 on a one-entry pool whose entry is young. -/
theorem C5_get_lifo_witness :
    ((udpConnPool.mk 4 [udpConnPoolElem.mk (some (UDPConn.mk 9)) 5] 10 5 10).get 6).pool.pool = [] ∧
    ((udpConnPool.mk 4 [udpConnPoolElem.mk (some (UDPConn.mk 9)) 5] 10 5 10).get 6).conn =
      (if (udpConnPool.mk 4 [udpConnPoolElem.mk (some (UDPConn.mk 9)) 5] 10 5 10).ttl <
          6 - (udpConnPoolElem.mk (some (UDPConn.mk 9)) 5).lastUsed then none
        else (udpConnPoolElem.mk (some (UDPConn.mk 9)) 5).conn) ∧
    ((udpConnPool.mk 4 [udpConnPoolElem.mk (some (UDPConn.mk 9)) 5] 10 5 10).get 6).closed =
      ((udpConnPool.mk 4 [udpConnPoolElem.mk (some (UDPConn.mk 9)) 5] 10 5 10).runCleanner 6).closed ++
        (if (udpConnPool.mk 4 [udpConnPoolElem.mk (some (UDPConn.mk 9)) 5] 10 5 10).ttl <
            6 - (udpConnPoolElem.mk (some (UDPConn.mk 9)) 5).lastUsed then
          (udpConnPoolElem.mk (some (UDPConn.mk 9)) 5).conn.toList else []) :=
  (C5_get_lifo 6 (udpConnPool.mk 4 [udpConnPoolElem.mk (some (UDPConn.mk 9)) 5] 10 5 10)).2
    [] (udpConnPoolElem.mk (some (UDPConn.mk 9)) 5) (by decide)

/-- Witness for C10 at a concrete zero-capacity pool. -/
theorem C10_zero_capacity_witness :
    ((newUDPConnPool 0 10 10).put 20 (UDPConn.mk 7)).pool.pool = [] ∧
    ((newUDPConnPool 0 10 10).put 20 (UDPConn.mk 7)).closed = [UDPConn.mk 7] ∧
    ((newUDPConnPool 0 10 10).get 20).pool.pool = [] ∧
    ((newUDPConnPool 0 10 10).get 20).conn = none ∧
    ((newUDPConnPool 0 10 10).get 20).closed = [] :=
  C10_zero_capacity.1 20 (newUDPConnPool 0 10 10) (UDPConn.mk 7) rfl rfl

/-- C1 counterexample: on a *fresh* UDP connection (pool miss, successful
dial) the query has transaction ID 1 and the single reply has transaction
ID 2 and 12 bytes, yet `exchange` returns that mismatched reply with no
error (and even pools the connection): the `goto read` guard
`!= msgID && !isNewConn` never fires on a new connection and no other ID
check exists on the UDP path, so the UDP half of the claim is false. -/
theorem C1_counterexample :
    GetMsgID [0, 1, 0, 0, 0, 0, 0, 0, 0, 0, 0, 0] = 1 ∧
    GetMsgID [0, 2, 0, 0, 0, 0, 0, 0, 0, 0, 0, 0] = 2 ∧
    udpExchange [0, 1, 0, 0, 0, 0, 0, 0, 0, 0, 0, 0]
      (UDPEnv.mk false true true false
        [ReadRes.msg [0, 2, 0, 0, 0, 0, 0, 0, 0, 0, 0, 0]]) =
      some (UDPOutcome.mk (some [0, 2, 0, 0, 0, 0, 0, 0, 0, 0, 0, 0]) none
        (some ConnFate.pooled) true false) := by
  decide

/-- C1 as amended: on a fresh TCP connection a reply with a different
transaction ID makes `exchange` fail with `dns.ErrId` and the reply is not
returned; but on a fresh (newly dialed) UDP connection the transaction ID is
never checked — the first reply of at least 12 bytes is returned to the
caller with no error whether or not its ID matches. -/
theorem C1_amended_mismatch :
    (∀ (qRaw rRaw : List Nat) (env : TCPEnv),
      env.dialOk = true → env.writeOk = true → env.readRes = some rRaw →
      GetMsgID rRaw ≠ GetMsgID qRaw →
      tcpExchange qRaw env = (none, some TCPErr.errId)) ∧
    (∀ (qRaw bytes : List Nat) (cc : Bool) (rest : List ReadRes),
      12 ≤ bytes.length →
      udpExchange qRaw (UDPEnv.mk false true true cc (ReadRes.msg bytes :: rest)) =
        some (UDPOutcome.mk (some bytes) none (some ConnFate.pooled) true false)) := by
  constructor
  · intro qRaw rRaw env hd hw hr hm
    simp [tcpExchange, hd, hw, hr, hm]
  · intro qRaw bytes cc rest h12
    simp only [udpExchange, udpReadLoop]
    rw [if_neg (by simp)]
    rw [if_neg (by simp)]
    rw [if_neg (by omega)]
    rw [if_neg (by simp)]

/-- Witness for the amended C1 at concrete messages with IDs 1 and 2. -/
theorem C1_amended_mismatch_witness :
    tcpExchange [0, 1, 0, 0, 0, 0, 0, 0, 0, 0, 0, 0]
      (TCPEnv.mk true true (some [0, 2, 0, 0, 0, 0, 0, 0, 0, 0, 0, 0])) =
      (none, some TCPErr.errId) ∧
    udpExchange [0, 1, 0, 0, 0, 0, 0, 0, 0, 0, 0, 0]
      (UDPEnv.mk false true true false
        (ReadRes.msg [0, 2, 0, 0, 0, 0, 0, 0, 0, 0, 0, 0] :: [])) =
      some (UDPOutcome.mk (some [0, 2, 0, 0, 0, 0, 0, 0, 0, 0, 0, 0]) none
        (some ConnFate.pooled) true false) :=
  ⟨C1_amended_mismatch.1 [0, 1, 0, 0, 0, 0, 0, 0, 0, 0, 0, 0]
      [0, 2, 0, 0, 0, 0, 0, 0, 0, 0, 0, 0]
      (TCPEnv.mk true true (some [0, 2, 0, 0, 0, 0, 0, 0, 0, 0, 0, 0]))
      rfl rfl rfl (by decide),
   C1_amended_mismatch.2 [0, 1, 0, 0, 0, 0, 0, 0, 0, 0, 0, 0]
      [0, 2, 0, 0, 0, 0, 0, 0, 0, 0, 0, 0] false [] (by decide)⟩

/-- C4: on a *reused* pooled UDP connection, a first reply of at least 12
bytes with a non-matching transaction ID is discarded, the read is retried
on the same connection, and a subsequent matching reply is returned with no
error (and the connection is returned to the pool). -/
theorem C4_reused_retry :
    ∀ (qRaw bad good : List Nat) (dk cc : Bool),
      12 ≤ bad.length → GetMsgID bad ≠ GetMsgID qRaw →
      12 ≤ good.length → GetMsgID good = GetMsgID qRaw →
      udpExchange qRaw
        (UDPEnv.mk true dk true cc [ReadRes.msg bad, ReadRes.msg good]) =
        some (UDPOutcome.mk (some good) none (some ConnFate.pooled) true false) := by
  intro qRaw bad good dk cc hbadlen hbadid hgoodlen hgoodid
  simp only [udpExchange, udpReadLoop]
  rw [if_neg (by simp)]
  rw [if_neg (by simp)]
  rw [if_neg (by omega)]
  rw [if_pos (by exact ⟨hbadid, by simp⟩)]
  rw [if_neg (by omega)]
  rw [if_neg (by simp [hgoodid])]

/-- Witness for C4: query ID 1, stale reply ID 2, then correct reply ID 1. -/
theorem C4_reused_retry_witness :
    udpExchange [0, 1, 0, 0, 0, 0, 0, 0, 0, 0, 0, 0]
      (UDPEnv.mk true true true false
        [ReadRes.msg [0, 2, 0, 0, 0, 0, 0, 0, 0, 0, 0, 0],
         ReadRes.msg [0, 1, 9, 0, 0, 0, 0, 0, 0, 0, 0, 0]]) =
      some (UDPOutcome.mk (some [0, 1, 9, 0, 0, 0, 0, 0, 0, 0, 0, 0]) none
        (some ConnFate.pooled) true false) :=
  C4_reused_retry [0, 1, 0, 0, 0, 0, 0, 0, 0, 0, 0, 0]
    [0, 2, 0, 0, 0, 0, 0, 0, 0, 0, 0, 0] [0, 1, 9, 0, 0, 0, 0, 0, 0, 0, 0, 0]
    true false (by decide) (by decide) (by decide) (by decide)

/-- C6: when the read fails with a timeout while the caller's context is
already done, the connection is returned to the pool (not closed), the
receive buffer is released, and `exchange` returns the timeout error with a
nil reply. -/
theorem C6_cancelled_timeout_repools :
    ∀ (qRaw : List Nat) (ph dk : Bool) (rest : List ReadRes),
      (ph = true ∨ dk = true) →
      udpExchange qRaw
        (UDPEnv.mk ph dk true true (ReadRes.timeoutRead :: rest)) =
        some (UDPOutcome.mk none (some UDPErr.readTimeout)
          (some ConnFate.pooled) true true) := by
  intro qRaw ph dk rest hconn
  simp only [udpExchange, udpReadLoop]
  rw [if_neg (by rcases hconn with h | h <;> simp [h])]
  rw [if_neg (by simp)]
  simp

/-- Witness for C6 on a pooled connection. -/
theorem C6_cancelled_timeout_repools_witness :
    udpExchange [] (UDPEnv.mk true true true true [ReadRes.timeoutRead]) =
      some (UDPOutcome.mk none (some UDPErr.readTimeout)
        (some ConnFate.pooled) true true) :=
  C6_cancelled_timeout_repools [] true true [] (Or.inl rfl)

/-- C7: whenever the UDP `exchange` exits, if the receive buffer was
acquired then it is handed to the caller as the reply exactly when it is not
released (every failure path releases it), and if a connection was obtained
(pool hit or successful dial) then it was either closed or returned to the
pool. -/
theorem C7_resource_discipline :
    ∀ (qRaw : List Nat) (env : UDPEnv) (o : UDPOutcome),
      udpExchange qRaw env = some o →
      (o.bufAcquired = true → (o.reply.isSome = true ↔ o.bufReleased = false)) ∧
      ((env.poolHit = true ∨ env.dialOk = true) → o.connFate.isSome = true) := by
  intro qRaw env o h
  simp only [udpExchange] at h
  by_cases h1 : env.poolHit = false ∧ env.dialOk = false
  · rw [if_pos h1] at h
    cases h
    constructor
    · intro hb; exact absurd hb (by decide)
    · intro hc
      rcases hc with hc | hc
      · rw [hc] at h1; exact absurd h1.1 (by decide)
      · rw [hc] at h1; exact absurd h1.2 (by decide)
  · rw [if_neg h1] at h
    by_cases h2 : env.writeOk = false
    · rw [if_pos h2] at h
      cases h
      constructor
      · intro hb; exact absurd hb (by decide)
      · intro _; rfl
    · rw [if_neg h2] at h
      have ho := udpReadLoop_outcome env.reads (GetMsgID qRaw) (!env.poolHit)
        env.ctxCancelled o h
      exact ⟨fun _ => ho.2.2, fun _ => ho.2.1⟩

/-- Witness for C7 on a run that fails with a non-timeout read error. -/
theorem C7_resource_discipline_witness :
    ((UDPOutcome.mk none (some UDPErr.readOther) (some ConnFate.closed)
        true true).bufAcquired = true →
      ((UDPOutcome.mk none (some UDPErr.readOther) (some ConnFate.closed)
          true true).reply.isSome = true ↔
        (UDPOutcome.mk none (some UDPErr.readOther) (some ConnFate.closed)
          true true).bufReleased = false)) ∧
    (((UDPEnv.mk true true true false [ReadRes.otherRead]).poolHit = true ∨
        (UDPEnv.mk true true true false [ReadRes.otherRead]).dialOk = true) →
      (UDPOutcome.mk none (some UDPErr.readOther) (some ConnFate.closed)
        true true).connFate.isSome = true) :=
  C7_resource_discipline [] (UDPEnv.mk true true true false [ReadRes.otherRead])
    (UDPOutcome.mk none (some UDPErr.readOther) (some ConnFate.closed) true true)
    (by decide)

/-- C8: for transport `"udp"` or `""`, `newUpstream` fails with a
resolution error exactly when the address does not resolve, and on success
returns a UDP upstream with maximum payload size 1480 whose pool is freshly
constructed with capacity 65535, TTL 10 s and cleanup interval 10 s. -/
theorem C8_factory_udp :
    ∀ (resolveUDP : String → Option UDPAddr) (addr url prot : String),
      (prot = "udp" ∨ prot = "") →
      ((newUpstream resolveUDP addr prot url = Except.error UpstreamErr.resolveErr ↔
          resolveUDP addr = none) ∧
        (∀ (a : UDPAddr), resolveUDP addr = some a →
          newUpstream resolveUDP addr prot url =
            Except.ok (Upstream.udp a 1480
              (newUDPConnPool 65535 (10 * second) (10 * second)))) ∧
        (newUDPConnPool 65535 (10 * second) (10 * second)).maxSize = 65535 ∧
        (newUDPConnPool 65535 (10 * second) (10 * second)).ttl = 10 * second ∧
        (newUDPConnPool 65535 (10 * second) (10 * second)).cleannerInterval =
          10 * second ∧
        (newUDPConnPool 65535 (10 * second) (10 * second)).pool = []) := by
  intro resolveUDP addr url prot hprot
  have hmain : ∀ (h : Except UpstreamErr Upstream),
      (h = (match resolveUDP addr with
        | none => Except.error UpstreamErr.resolveErr
        | some udpAddr =>
          Except.ok (Upstream.udp udpAddr 1480
            (newUDPConnPool 0xffff (10 * second) (10 * second))))) →
      ((h = Except.error UpstreamErr.resolveErr ↔ resolveUDP addr = none) ∧
        (∀ (a : UDPAddr), resolveUDP addr = some a →
          h = Except.ok (Upstream.udp a 1480
            (newUDPConnPool 65535 (10 * second) (10 * second))))) := by
    intro h hh
    cases hr : resolveUDP addr with
    | none => rw [hr] at hh; subst hh; simp
    | some a => rw [hr] at hh; subst hh; simp
  rcases hprot with hp | hp <;> subst hp <;>
    exact ⟨(hmain _ rfl).1, (hmain _ rfl).2, rfl, rfl, rfl, rfl⟩

/-- Witness for C8 with a resolver that succeeds on the given address. -/
theorem C8_factory_udp_witness :
    ((newUpstream (fun _ => some (UDPAddr.mk "127.0.0.1:53")) "127.0.0.1:53"
        "udp" "" = Except.error UpstreamErr.resolveErr ↔
        (fun _ => some (UDPAddr.mk "127.0.0.1:53")) "127.0.0.1:53" =
          (none : Option UDPAddr)) ∧
      (∀ (a : UDPAddr),
        (fun _ => some (UDPAddr.mk "127.0.0.1:53")) "127.0.0.1:53" = some a →
        newUpstream (fun _ => some (UDPAddr.mk "127.0.0.1:53")) "127.0.0.1:53"
          "udp" "" =
          Except.ok (Upstream.udp a 1480
            (newUDPConnPool 65535 (10 * second) (10 * second)))) ∧
      (newUDPConnPool 65535 (10 * second) (10 * second)).maxSize = 65535 ∧
      (newUDPConnPool 65535 (10 * second) (10 * second)).ttl = 10 * second ∧
      (newUDPConnPool 65535 (10 * second) (10 * second)).cleannerInterval =
        10 * second ∧
      (newUDPConnPool 65535 (10 * second) (10 * second)).pool = []) :=
  C8_factory_udp (fun _ => some (UDPAddr.mk "127.0.0.1:53")) "127.0.0.1:53"
    "" "udp" (Or.inl rfl)
